import Mathlib

/-!
Verification of the `null` package: nullable integer scalars `Int16`, `Uint`
and `Uint64` (files `int16.go`, `uint.go` and the unnamed `Uint64` file) with
their JSON codec, text codec and database Scan/Value bridge.

The Go code is shallowly embedded below.  Byte slices become `List Char`,
`int16`/`int64` become `Int` with explicit two's-complement wrapping where Go
converts, `uint`/`uint64` become `Nat` (the platform `uint` is modelled as
64 bits wide).  Each Go method becomes a pure function from the receiver state
and the input to the new state paired with the returned error
(`Option Err`, `none` standing for Go's `nil` error).

External collaborators (Go's `encoding/json` and `strconv` standard
libraries, and the repository's `convert.ConvertAssign` helper, which lives
outside `src/`) are modelled by explicit functions; their doc comments state
exactly what is modelled.
-/

namespace Null

/-- Character for a single decimal digit value 0-9 (used to model Go's
base-10 formatting). -/
def digitChar : Nat → Char
  | 0 => '0'
  | 1 => '1'
  | 2 => '2'
  | 3 => '3'
  | 4 => '4'
  | 5 => '5'
  | 6 => '6'
  | 7 => '7'
  | 8 => '8'
  | 9 => '9'
  | _ => 'x'

/-- Numeric value of an ASCII decimal digit character. -/
def charToDigit (c : Char) : Nat := c.toNat - 48

/-- Test for an ASCII decimal digit. -/
def isDigitChar (c : Char) : Bool := decide (48 ≤ c.toNat ∧ c.toNat ≤ 57)

/-- Little-endian decimal digit characters of `n`; the first argument is
fuel (any fuel at least `n` yields all digits, and the recursion is
structural on the fuel so terms reduce by evaluation). -/
def natDigitsAux : Nat → Nat → List Char
  | 0, _ => []
  | _ + 1, 0 => []
  | fuel + 1, n + 1 => digitChar ((n + 1) % 10) :: natDigitsAux fuel ((n + 1) / 10)

/-- Model of `strconv.FormatUint(n, 10)`: canonical base-10 representation,
no leading zeros, `"0"` for zero. -/
def formatNat (n : Nat) : List Char :=
  if n = 0 then ['0'] else (natDigitsAux n n).reverse

/-- Model of `strconv.FormatInt(x, 10)`: a leading minus sign for negative
values, then the decimal digits of the magnitude. -/
def formatInt (x : Int) : List Char :=
  if x < 0 then '-' :: formatNat x.natAbs else formatNat x.natAbs

/-- Value of a list of decimal digit characters, most significant first. -/
def digitsVal (cs : List Char) : Nat :=
  cs.foldl (fun a c => 10 * a + charToDigit c) 0

/-- Recognizer for the optional exponent part of a JSON number
(`([eE][+-]?[0-9]+)?` at the end of the token). -/
def isExpTail : List Char → Bool
  | [] => true
  | e :: rest =>
    (e == 'e' || e == 'E') &&
      (match rest with
       | [] => false
       | s :: r2 =>
         if s == '+' || s == '-' then !r2.isEmpty && r2.all isDigitChar
         else isDigitChar s && r2.all isDigitChar)

/-- Recognizer for the optional fraction-then-exponent tail of a JSON number
(`(\.[0-9]+)?([eE][+-]?[0-9]+)?` at the end of the token). -/
def isFracExpTail : List Char → Bool
  | [] => true
  | c :: rest =>
    if c == '.' then
      !(rest.takeWhile isDigitChar).isEmpty && isExpTail (rest.dropWhile isDigitChar)
    else isExpTail (c :: rest)

/-- Recognizer for the unsigned body of a JSON number: `0` or a nonzero
leading digit followed by digits, then an optional fraction/exponent tail. -/
def isJsonNumBody : List Char → Bool
  | [] => false
  | c :: rest =>
    if c == '0' then isFracExpTail rest
    else if isDigitChar c then isFracExpTail (rest.dropWhile isDigitChar)
    else false

/-- Recognizer for a complete JSON number token (RFC 8259 grammar
`-?(0|[1-9][0-9]*)(\.[0-9]+)?([eE][+-]?[0-9]+)?`). -/
def isJsonNumLit (cs : List Char) : Bool :=
  if cs.head? == some '-' then isJsonNumBody cs.tail else isJsonNumBody cs

/-- Recognizer for a JSON number token that is a plain unsigned integer
(no sign, no fraction, no exponent, no leading zeros). -/
def isJsonUIntLit : List Char → Bool
  | [] => false
  | c :: rest =>
    if c == '0' then rest.isEmpty else isDigitChar c && rest.all isDigitChar

/-- Recognizer for a JSON number token that is a plain integer with an
optional leading minus sign. -/
def isJsonIntLit (cs : List Char) : Bool :=
  if cs.head? == some '-' then isJsonUIntLit cs.tail else isJsonUIntLit cs

/-- Signed value of a plain JSON integer token. -/
def jsonIntVal (cs : List Char) : Int :=
  if cs.head? == some '-' then -(digitsVal cs.tail : Int) else (digitsVal cs : Int)

/-- Error kinds surfaced by the modelled operations.  Go distinguishes them
only as non-nil `error` values; the constructors record which code path
produced the error. -/
inductive Err
  | syntaxErr
  | typeErr
  | rangeErr
  | overflow (x : Int)
  | typeMismatch
  | convErr
deriving DecidableEq

/-- Model of Go `json.Unmarshal(data, &x)` for an `int64` target: succeeds
exactly on a JSON integer literal whose value fits in a signed 64-bit
integer.  A syntactically invalid payload is a syntax error; a well-formed
JSON number that is fractional, has an exponent, or overflows int64 is an
unmarshal-type error (both leave the target untouched, which callers model
explicitly). -/
def goUnmarshalInt64 (data : List Char) : Except Err Int :=
  if !isJsonNumLit data then .error .syntaxErr
  else if isJsonIntLit data then
    let v := jsonIntVal data
    if -9223372036854775808 ≤ v ∧ v ≤ 9223372036854775807 then .ok v
    else .error .typeErr
  else .error .typeErr

/-- Model of Go `json.Unmarshal(data, &x)` for a `uint64` target: succeeds
exactly on an unsigned JSON integer literal whose value fits in 64 bits. -/
def goUnmarshalUint64 (data : List Char) : Except Err Nat :=
  if !isJsonNumLit data then .error .syntaxErr
  else if isJsonUIntLit data then
    let v := digitsVal data
    if v ≤ 18446744073709551615 then .ok v
    else .error .typeErr
  else .error .typeErr

/-- Leading-sign decomposition used by `strconv.ParseInt`: returns
(negative?, digits part). -/
def splitSign (s : List Char) : Bool × List Char :=
  match s with
  | [] => (false, [])
  | c :: r => if c == '-' then (true, r) else if c == '+' then (false, r) else (false, s)

/-- Model of `strconv.ParseInt(s, 10, bits)`.  Mirrors Go's return
convention: on syntax error the value 0 is returned with the error, on
range error the nearest representable bound is returned with the error. -/
def goParseInt (s : List Char) (bits : Nat) : Int × Option Err :=
  let p := splitSign s
  if p.2.isEmpty || !p.2.all isDigitChar then (0, some .syntaxErr)
  else
    let v : Int := if p.1 then -(digitsVal p.2 : Int) else (digitsVal p.2 : Int)
    if v < -(2 ^ (bits - 1)) then (-(2 ^ (bits - 1)), some .rangeErr)
    else if 2 ^ (bits - 1) - 1 < v then (2 ^ (bits - 1) - 1, some .rangeErr)
    else (v, none)

/-- Model of `strconv.ParseUint(s, 10, bits)` (a bit size of 0 in the Go
sources means the platform word, modelled as 64).  No sign is accepted; on
syntax error 0 is returned with the error, on range error the maximum
representable value is returned with the error. -/
def goParseUint (s : List Char) (bits : Nat) : Nat × Option Err :=
  if s.isEmpty || !s.all isDigitChar then (0, some .syntaxErr)
  else
    let v := digitsVal s
    if v < 2 ^ bits then (v, none) else (2 ^ bits - 1, some .rangeErr)

/-- ASCII double quote (written by code point to keep the embedding free of
quote characters inside character literals). -/
def quoteChar : Char := Char.ofNat 34

/-- ASCII backslash. -/
def backslashChar : Char := Char.ofNat 92

/-- ASCII left curly bracket. -/
def lbraceChar : Char := Char.ofNat 123

/-- Modelled from the spec: `NullBytes`, the JSON null literal used by every
type's codec.  Its definition lives in repository code outside `src/`; per
the spec the JSON encoding of the absent value is the null literal. -/
def NullBytes : List Char := ("null").toList

/-- Runtime shape Go's `json.Unmarshal` into `interface` produces for a
payload: numbers become `float64` (only the classification matters here,
both `Uint` and `Uint64` re-unmarshal the raw payload for the value),
strings, null, booleans, arrays, objects. -/
inductive GoJsonVal
  | num
  | jstr (s : List Char)
  | jnull
  | jbool (b : Bool)
  | jarr
  | jobj
deriving DecidableEq

/-- Model of Go `json.Unmarshal(data, &v)` for an `interface` target,
reduced to the classification of the payload: `none` is a top-level parse
failure.  Strings are modelled without escape sequences (a quoted run free
of quotes and backslashes); arrays and objects are classified by their
leading byte and their internal well-formedness is not modelled, since
every such payload feeds the same type-mismatch arm. -/
def goJsonClassify (data : List Char) : Option GoJsonVal :=
  if isJsonNumLit data then some .num
  else if data.head? = some quoteChar then
    (let rest := data.tail
     if !rest.isEmpty && rest.getLast? == some quoteChar
         && (rest.dropLast).all (fun c => !(c == quoteChar) && !(c == backslashChar))
     then some (.jstr rest.dropLast) else none)
  else if data = NullBytes then some .jnull
  else if data = ("true").toList then some (.jbool true)
  else if data = ("false").toList then some (.jbool false)
  else if data.head? = some '[' then some .jarr
  else if data.head? = some lbraceChar then some .jobj
  else none

/-- Go conversion `int16(x)` from a wider signed integer: two's-complement
truncation into the range -32768..32767. -/
def toInt16 (x : Int) : Int := (x + 32768) % 65536 - 32768

/-- State of `null.Int16` (src/int16.go): value, `Valid` flag and the
unexported `set` flag. -/
structure Int16 where
  int16 : Int
  valid : Bool
  set : Bool
deriving DecidableEq

/-- NewInt16 creates a new Int16 (src/int16.go). -/
def NewInt16 (i : Int) (valid s : Bool) : Int16 := ⟨i, valid, s⟩

/-- Int16From creates a new Int16 that will always be valid (src/int16.go). -/
def Int16From (i : Int) : Int16 := NewInt16 i true true

/-- Int16FromPtr creates a new Int16 that is null if the pointer is nil
(src/int16.go); the optional argument models the Go pointer. -/
def Int16FromPtr (i : Option Int) : Int16 :=
  match i with
  | none => NewInt16 0 false true
  | some x => NewInt16 x true true

/-- IsSet (src/int16.go): returns the unexported `set` flag. -/
def Int16.IsSet (i : Int16) : Bool := i.set

/-- UnmarshalJSON for Int16 (src/int16.go): flags `set`, treats the null
literal as the invalid state, otherwise unmarshals an int64 and rejects
values above `math.MaxInt16` (and only above: there is no lower-bound
check before the `int16(x)` conversion). -/
def Int16.UnmarshalJSON (i : Int16) (data : List Char) : Int16 × Option Err :=
  let j := { i with set := true }
  if data = NullBytes then ({ j with int16 := 0, valid := false }, none)
  else
    match goUnmarshalInt64 data with
    | .error e => (j, some e)
    | .ok x =>
      if 32767 < x then (j, some (.overflow x))
      else ({ j with int16 := toInt16 x, valid := true }, none)

/-- UnmarshalText for Int16 (src/int16.go): empty input is the valid=false
success; otherwise `strconv.ParseInt(text, 10, 16)` decides `Valid`, and
the value is stored only on success. -/
def Int16.UnmarshalText (i : Int16) (text : List Char) : Int16 × Option Err :=
  let j := { i with set := true }
  if text.isEmpty then ({ j with valid := false }, none)
  else
    let p := goParseInt text 16
    ({ j with valid := p.2.isNone,
              int16 := if p.2.isNone then toInt16 p.1 else j.int16 }, p.2)

/-- MarshalJSON for Int16 (src/int16.go). -/
def Int16.MarshalJSON (i : Int16) : List Char :=
  if i.valid then formatInt i.int16 else NullBytes

/-- MarshalText for Int16 (src/int16.go). -/
def Int16.MarshalText (i : Int16) : List Char :=
  if i.valid then formatInt i.int16 else []

/-- SetValid for Int16 (src/int16.go). -/
def Int16.SetValid (i : Int16) (n : Int) : Int16 :=
  { i with int16 := n, valid := true, set := true }

/-- IsZero for Int16 (src/int16.go): true for invalid instances. -/
def Int16.IsZero (i : Int16) : Bool := !i.valid

/-- Randomize for Int16 (src/int16.go): either the null state, or the
generator output reduced modulo `math.MaxInt16` (Go's truncated `%`) and
converted to int16.  Note it does not touch the `set` flag. -/
def Int16.Randomize (i : Int16) (r : Int) (fieldType : List Char) (shouldBeNull : Bool) : Int16 :=
  if shouldBeNull then { i with int16 := 0, valid := false }
  else { i with int16 := toInt16 (r.tmod 32767), valid := true }

/-- State of `null.Uint` (src/uint.go).  Go's platform-sized `uint` is
modelled as 64 bits wide. -/
structure Uint where
  uint : Nat
  valid : Bool
deriving DecidableEq

/-- NewUint creates a new Uint (src/uint.go). -/
def NewUint (i : Nat) (valid : Bool) : Uint := ⟨i, valid⟩

/-- UintFrom creates a new Uint that will always be valid (src/uint.go). -/
def UintFrom (i : Nat) : Uint := NewUint i true

/-- UintFromPtr creates a new Uint that is null if the pointer is nil
(src/uint.go). -/
def UintFromPtr (i : Option Nat) : Uint :=
  match i with
  | none => NewUint 0 false
  | some x => NewUint x true

/-- State of `null.Uint64` (the unnamed source file). -/
structure Uint64 where
  uint64 : Nat
  valid : Bool
deriving DecidableEq

/-- NewUint64 creates a new Uint64. -/
def NewUint64 (i : Nat) (valid : Bool) : Uint64 := ⟨i, valid⟩

/-- Uint64From creates a new Uint64 that will always be valid. -/
def Uint64From (i : Nat) : Uint64 := NewUint64 i true

/-- UnmarshalJSON for Uint (src/uint.go): null literal clears the instance;
otherwise the payload is classified via an `interface` unmarshal, numbers
are re-unmarshalled directly into a fresh uint64 local (0 on failure),
strings go through `strconv.ParseUint(str, 10, 64)` with the empty string
meaning null, and other shapes produce a type mismatch.  After the switch,
`u.uint` receives the local and `Valid` is `err == nil && u.uint != 0`. -/
def Uint.UnmarshalJSON (u : Uint) (data : List Char) : Uint × Option Err :=
  if data = NullBytes then ({ u with valid := false, uint := 0 }, none)
  else
    match goJsonClassify data with
    | none => (u, some .syntaxErr)
    | some .num =>
      (match goUnmarshalUint64 data with
       | .ok n => ({ u with uint := n, valid := n != 0 }, none)
       | .error e => ({ u with uint := 0, valid := false }, some e))
    | some (.jstr s) =>
      if s.isEmpty then ({ u with valid := false }, none)
      else
        (let p := goParseUint s 64
         ({ u with uint := p.1, valid := p.2.isNone && p.1 != 0 }, p.2))
    | some .jnull => ({ u with valid := false }, none)
    | some _ => ({ u with uint := 0, valid := false }, some .typeMismatch)

/-- UnmarshalText for Uint (src/uint.go): empty input is the valid=false
success; otherwise `strconv.ParseUint(text, 10, 0)` (platform word,
modelled as 64 bits) decides `Valid`, the value stored only on success. -/
def Uint.UnmarshalText (u : Uint) (text : List Char) : Uint × Option Err :=
  if text.isEmpty then ({ u with valid := false }, none)
  else
    let p := goParseUint text 64
    ({ u with valid := p.2.isNone,
              uint := if p.2.isNone then p.1 else u.uint }, p.2)

/-- MarshalJSON for Uint (src/uint.go). -/
def Uint.MarshalJSON (u : Uint) : List Char :=
  if u.valid then formatNat u.uint else NullBytes

/-- MarshalText for Uint (src/uint.go). -/
def Uint.MarshalText (u : Uint) : List Char :=
  if u.valid then formatNat u.uint else []

/-- UnmarshalJSON for Uint64 (unnamed source file): like `Uint` but numbers
are unmarshalled directly into the `u.uint64` field (so a failed number
parse keeps the prior stored value), and the string arm assigns the
`ParseUint` result even on error. -/
def Uint64.UnmarshalJSON (u : Uint64) (data : List Char) : Uint64 × Option Err :=
  if data = NullBytes then ({ u with uint64 := 0, valid := false }, none)
  else
    match goJsonClassify data with
    | none => (u, some .syntaxErr)
    | some .num =>
      (match goUnmarshalUint64 data with
       | .ok n => ({ u with uint64 := n, valid := n != 0 }, none)
       | .error e => ({ u with valid := false }, some e))
    | some (.jstr s) =>
      if s.isEmpty then ({ u with valid := false }, none)
      else
        (let p := goParseUint s 64
         ({ u with uint64 := p.1, valid := p.2.isNone && p.1 != 0 }, p.2))
    | some .jnull => ({ u with valid := false }, none)
    | some _ => ({ u with valid := false }, some .typeMismatch)

/-- UnmarshalText for Uint64 (unnamed source file). -/
def Uint64.UnmarshalText (u : Uint64) (text : List Char) : Uint64 × Option Err :=
  if text.isEmpty then ({ u with valid := false }, none)
  else
    let p := goParseUint text 64
    ({ u with valid := p.2.isNone,
              uint64 := if p.2.isNone then p.1 else u.uint64 }, p.2)

/-- MarshalJSON for Uint64 (unnamed source file). -/
def Uint64.MarshalJSON (u : Uint64) : List Char :=
  if u.valid then formatNat u.uint64 else NullBytes

/-- MarshalText for Uint64 (unnamed source file). -/
def Uint64.MarshalText (u : Uint64) : List Char :=
  if u.valid then formatNat u.uint64 else []

/-- Shapes a database driver value can take (spec glossary: nil, signed
64-bit integer, string, byte sequence, float, bool, time; floats and times
are opaque here since no modelled operation inspects them). -/
inductive DriverValue
  | dnil
  | dint64 (x : Int)
  | dfloat64
  | dbool (b : Bool)
  | dbytes (s : List Char)
  | dstring (s : List Char)
  | dtime
deriving DecidableEq

/-- Runtime values handed to the external converter: the driver shapes plus
the `uint64` Go value produced by `Uint64.Scan`'s negative-int64 special
case. -/
inductive ConvVal
  | cint64 (x : Int)
  | cuint64 (n : Nat)
  | cstr (s : List Char)
  | cother
deriving DecidableEq

/-- View of a driver value as a converter input. -/
def DriverValue.toConv : DriverValue → ConvVal
  | .dint64 x => .cint64 x
  | .dstring s => .cstr s
  | .dbytes s => .cstr s
  | _ => .cother

/-- Modelled from the spec: the external best-effort converter
`convert.ConvertAssign` (outside `src/`), specified as a narrow capability
coercing a raw value into the target type and reporting an error for
unconvertible shapes.  For an int16 target: in-range signed integers and
numeric strings convert, everything else is an opaque conversion error
leaving the target unchanged. -/
def convertAssignInt16 : ConvVal → Int → Int × Option Err
  | .cint64 x, prev =>
    if -32768 ≤ x ∧ x ≤ 32767 then (x, none) else (prev, some .convErr)
  | .cstr s, prev =>
    (let p := goParseInt s 16
     if p.2.isNone then (p.1, none) else (prev, some .convErr))
  | _, prev => (prev, some .convErr)

/-- Modelled from the spec: `convert.ConvertAssign` for a `uint` target
(64 bits here).  Unsigned sources assign directly, non-negative signed
sources convert, negative signed sources are rejected, numeric strings
parse; other shapes are conversion errors. -/
def convertAssignUint : ConvVal → Nat → Nat × Option Err
  | .cuint64 n, _ => (n % 18446744073709551616, none)
  | .cint64 x, prev => if 0 ≤ x then (x.toNat, none) else (prev, some .convErr)
  | .cstr s, prev =>
    (let p := goParseUint s 64
     if p.2.isNone then (p.1, none) else (prev, some .convErr))
  | .cother, prev => (prev, some .convErr)

/-- Modelled from the spec: `convert.ConvertAssign` for a `uint64` target;
same contract as for `uint`. -/
def convertAssignUint64 : ConvVal → Nat → Nat × Option Err
  | .cuint64 n, _ => (n % 18446744073709551616, none)
  | .cint64 x, prev => if 0 ≤ x then (x.toNat, none) else (prev, some .convErr)
  | .cstr s, prev =>
    (let p := goParseUint s 64
     if p.2.isNone then (p.1, none) else (prev, some .convErr))
  | .cother, prev => (prev, some .convErr)

/-- Scan for Int16 (src/int16.go): a nil driver value resets value, `Valid`
and `set`; otherwise `Valid` and `set` are raised and the converter writes
the value. -/
def Int16.Scan (i : Int16) (v : DriverValue) : Int16 × Option Err :=
  if v = .dnil then ({ i with int16 := 0, valid := false, set := false }, none)
  else
    let j := { i with valid := true, set := true }
    let p := convertAssignInt16 v.toConv j.int16
    ({ j with int16 := p.1 }, p.2)

/-- Scan for Uint (src/uint.go). -/
def Uint.Scan (u : Uint) (v : DriverValue) : Uint × Option Err :=
  if v = .dnil then ({ u with uint := 0, valid := false }, none)
  else
    let j := { u with valid := true }
    let p := convertAssignUint v.toConv j.uint
    ({ j with uint := p.1 }, p.2)

/-- Scan for Uint64 (unnamed source file): nil resets; a negative signed
64-bit driver value is first reinterpreted as `uint64(i)` (two's
complement) and only then handed to the converter; everything else goes to
the converter unchanged. -/
def Uint64.Scan (u : Uint64) (v : DriverValue) : Uint64 × Option Err :=
  if v = .dnil then ({ u with uint64 := 0, valid := false }, none)
  else
    let j := { u with valid := true }
    match v with
    | .dint64 x =>
      if x < 0 then
        (let p := convertAssignUint64 (.cuint64 (x % 18446744073709551616).toNat) j.uint64
         ({ j with uint64 := p.1 }, p.2))
      else
        (let p := convertAssignUint64 (.cint64 x) j.uint64
         ({ j with uint64 := p.1 }, p.2))
    | _ =>
      (let p := convertAssignUint64 v.toConv j.uint64
       ({ j with uint64 := p.1 }, p.2))

/-- Value for Uint64 (unnamed source file): nil sentinel when invalid; a
stored value at or above 2^63 is emitted as its decimal string, otherwise
as a signed 64-bit integer. -/
def Uint64.Value (u : Uint64) : DriverValue × Option Err :=
  if !u.valid then (.dnil, none)
  else if 9223372036854775808 ≤ u.uint64 then (.dstring (formatNat u.uint64), none)
  else (.dint64 (u.uint64 : Int), none)

/-!
Lemma layer: properties of the numeral model (formatting produces a valid
JSON/strconv numeral and parsing it back recovers the value), used by the
round-trip theorems below.
-/

theorem charToDigit_digitChar {d : Nat} (h : d < 10) :
    charToDigit (digitChar d) = d := by
  interval_cases d <;> rfl

theorem isDigitChar_digitChar {d : Nat} (h : d < 10) :
    isDigitChar (digitChar d) = true := by
  interval_cases d <;> rfl

theorem digitChar_bounds {d : Nat} (h0 : 0 < d) (h : d < 10) :
    49 ≤ (digitChar d).toNat ∧ (digitChar d).toNat ≤ 57 := by
  interval_cases d <;> exact ⟨by decide, by decide⟩

theorem natDigitsAux_zero (f : Nat) : natDigitsAux f 0 = [] := by
  cases f <;> rfl

theorem natDigitsAux_all : ∀ (f n : Nat), (natDigitsAux f n).all isDigitChar = true := by
  intro f
  induction f with
  | zero => intro n; rfl
  | succ f ih =>
    intro n
    cases n with
    | zero => rfl
    | succ m =>
      simp only [natDigitsAux, List.all_cons, ih, Bool.and_true]
      exact isDigitChar_digitChar (Nat.mod_lt _ (by omega))

theorem natDigitsAux_foldr : ∀ (f n : Nat), n ≤ f →
    (natDigitsAux f n).foldr (fun c a => 10 * a + charToDigit c) 0 = n := by
  intro f
  induction f with
  | zero =>
    intro n h
    have hn : n = 0 := Nat.le_zero.mp h
    subst hn; rfl
  | succ f ih =>
    intro n h
    cases n with
    | zero => rfl
    | succ m =>
      have hdiv : (m + 1) / 10 ≤ f := by
        have := Nat.div_lt_self (Nat.succ_pos m) (by omega : 1 < 10)
        omega
      simp only [natDigitsAux, List.foldr_cons, ih _ hdiv,
        charToDigit_digitChar (Nat.mod_lt _ (by omega : (0:Nat) < 10))]
      omega

theorem natDigitsAux_ne_nil {f n : Nat} (hf : 0 < f) (hn : 0 < n) :
    natDigitsAux f n ≠ [] := by
  cases f with
  | zero => omega
  | succ f =>
    cases n with
    | zero => omega
    | succ m => simp [natDigitsAux]

theorem natDigitsAux_getLast : ∀ (f n : Nat), 0 < n → n ≤ f →
    ∃ d, 0 < d ∧ d < 10 ∧ (natDigitsAux f n).getLast? = some (digitChar d) := by
  intro f
  induction f with
  | zero => intro n h0 h; omega
  | succ f ih =>
    intro n h0 h
    cases n with
    | zero => omega
    | succ m =>
      by_cases hq : (m + 1) / 10 = 0
      · refine ⟨(m + 1) % 10, ?_, Nat.mod_lt _ (by omega), ?_⟩
        · have : m + 1 < 10 := by omega
          omega
        · simp [natDigitsAux, hq, natDigitsAux_zero]
      · have hdiv : (m + 1) / 10 ≤ f := by
          have := Nat.div_lt_self (Nat.succ_pos m) (by omega : 1 < 10)
          omega
        obtain ⟨d, hd0, hd10, hlast⟩ := ih ((m + 1) / 10) (Nat.pos_of_ne_zero hq) hdiv
        refine ⟨d, hd0, hd10, ?_⟩
        have hne : natDigitsAux f ((m + 1) / 10) ≠ [] := by
          cases f with
          | zero => omega
          | succ f2 => exact natDigitsAux_ne_nil (Nat.succ_pos f2) (Nat.pos_of_ne_zero hq)
        obtain ⟨c, cs, hcons⟩ := List.exists_cons_of_ne_nil hne
        simp only [natDigitsAux, hcons, List.getLast?_cons_cons]
        rw [← hcons, hlast]

theorem formatNat_all (n : Nat) : (formatNat n).all isDigitChar = true := by
  unfold formatNat
  split
  · rfl
  · rw [List.all_reverse]
    exact natDigitsAux_all n n

theorem formatNat_ne_nil (n : Nat) : formatNat n ≠ [] := by
  unfold formatNat
  split
  · simp
  · simp only [ne_eq, List.reverse_eq_nil_iff]
    exact natDigitsAux_ne_nil (by omega) (by omega)

theorem digitsVal_formatNat (n : Nat) : digitsVal (formatNat n) = n := by
  unfold formatNat
  split
  · simp_all [digitsVal, charToDigit]
  · unfold digitsVal
    rw [List.foldl_reverse]
    exact natDigitsAux_foldr n n le_rfl

theorem isJsonUIntLit_formatNat (n : Nat) : isJsonUIntLit (formatNat n) = true := by
  unfold formatNat
  split
  · rfl
  · rename_i hn
    obtain ⟨d, hd0, hd10, hlast⟩ := natDigitsAux_getLast n n (by omega) le_rfl
    have hrevne : (natDigitsAux n n).reverse ≠ [] := by
      simp only [ne_eq, List.reverse_eq_nil_iff]
      exact natDigitsAux_ne_nil (by omega) (by omega)
    obtain ⟨c, cs, hcons⟩ := List.exists_cons_of_ne_nil hrevne
    have hhead : (natDigitsAux n n).reverse.head? = some (digitChar d) := by
      rw [List.head?_reverse]; exact hlast
    rw [hcons] at hhead
    simp only [List.head?_cons, Option.some.injEq] at hhead
    subst hhead
    have hb := digitChar_bounds hd0 hd10
    have hnz : (digitChar d == '0') = false := by
      apply beq_eq_false_iff_ne.mpr
      intro he
      rw [he] at hb
      exact absurd hb.1 (by decide)
    have hall : cs.all isDigitChar = true := by
      have := natDigitsAux_all n n
      rw [← List.all_reverse, hcons, List.all_cons] at this
      exact (Bool.and_eq_true _ _ |>.mp this).2
    rw [hcons]
    simp only [isJsonUIntLit, hnz, Bool.false_eq_true, if_false, hall, Bool.and_true]
    exact isDigitChar_digitChar hd10

theorem isJsonNumBody_of_uintLit {l : List Char} (h : isJsonUIntLit l = true) :
    isJsonNumBody l = true := by
  cases l with
  | nil => simp [isJsonUIntLit] at h
  | cons c rest =>
    simp only [isJsonUIntLit] at h
    simp only [isJsonNumBody]
    by_cases hc : (c == '0') = true
    · simp only [hc, if_true] at h ⊢
      simp only [List.isEmpty_iff] at h
      subst h
      rfl
    · simp only [Bool.not_eq_true] at hc
      simp only [hc, Bool.false_eq_true, if_false] at h ⊢
      have hdig := (Bool.and_eq_true _ _ |>.mp h).1
      have hall := (Bool.and_eq_true _ _ |>.mp h).2
      simp only [hdig, if_true]
      have : rest.dropWhile isDigitChar = [] := by
        rw [List.dropWhile_eq_nil_iff]
        intro x hx
        exact List.all_eq_true.mp hall x hx
      rw [this]
      rfl

theorem head_formatNat_not_minus (n : Nat) :
    ((formatNat n).head? == some '-') = false := by
  obtain ⟨c, cs, hcons⟩ := List.exists_cons_of_ne_nil (formatNat_ne_nil n)
  have hdig : isDigitChar c = true := by
    have := formatNat_all n
    rw [hcons, List.all_cons] at this
    exact (Bool.and_eq_true _ _ |>.mp this).1
  rw [hcons]
  simp only [List.head?_cons]
  apply beq_eq_false_iff_ne.mpr
  intro he
  simp only [Option.some.injEq] at he
  subst he
  simp [isDigitChar] at hdig

theorem isJsonNumLit_formatNat (n : Nat) : isJsonNumLit (formatNat n) = true := by
  unfold isJsonNumLit
  rw [head_formatNat_not_minus]
  simp only [Bool.false_eq_true, if_false]
  exact isJsonNumBody_of_uintLit (isJsonUIntLit_formatNat n)

theorem isJsonUIntLit_ne_nil {l : List Char} (h : isJsonUIntLit l = true) : l ≠ [] := by
  cases l with
  | nil => simp [isJsonUIntLit] at h
  | cons c cs => simp

theorem formatInt_eq_of_nonneg {x : Int} (h : 0 ≤ x) :
    formatInt x = formatNat x.natAbs := by
  unfold formatInt
  rw [if_neg (by omega)]

theorem formatInt_eq_of_neg {x : Int} (h : x < 0) :
    formatInt x = '-' :: formatNat x.natAbs := by
  unfold formatInt
  rw [if_pos h]

theorem isJsonIntLit_formatInt (x : Int) : isJsonIntLit (formatInt x) = true := by
  by_cases h : x < 0
  · rw [formatInt_eq_of_neg h]
    unfold isJsonIntLit
    simp only [List.head?_cons, List.tail_cons]
    rw [if_pos (by simp)]
    exact isJsonUIntLit_formatNat _
  · rw [formatInt_eq_of_nonneg (by omega)]
    unfold isJsonIntLit
    rw [head_formatNat_not_minus]
    simp only [Bool.false_eq_true, if_false]
    exact isJsonUIntLit_formatNat _

theorem isJsonNumLit_formatInt (x : Int) : isJsonNumLit (formatInt x) = true := by
  by_cases h : x < 0
  · rw [formatInt_eq_of_neg h]
    unfold isJsonNumLit
    simp only [List.head?_cons, List.tail_cons]
    rw [if_pos (by simp)]
    exact isJsonNumBody_of_uintLit (isJsonUIntLit_formatNat _)
  · rw [formatInt_eq_of_nonneg (by omega)]
    exact isJsonNumLit_formatNat _

theorem jsonIntVal_formatInt (x : Int) : jsonIntVal (formatInt x) = x := by
  by_cases h : x < 0
  · rw [formatInt_eq_of_neg h]
    unfold jsonIntVal
    simp only [List.head?_cons, List.tail_cons]
    rw [if_pos (by simp), digitsVal_formatNat]
    omega
  · rw [formatInt_eq_of_nonneg (by omega)]
    unfold jsonIntVal
    rw [head_formatNat_not_minus]
    simp only [Bool.false_eq_true, if_false, digitsVal_formatNat]
    omega

theorem formatNat_ne_NullBytes (n : Nat) : formatNat n ≠ NullBytes := by
  intro h
  have := isJsonUIntLit_formatNat n
  rw [h] at this
  exact absurd this (by decide)

theorem formatInt_ne_NullBytes (x : Int) : formatInt x ≠ NullBytes := by
  intro h
  have := isJsonIntLit_formatInt x
  rw [h] at this
  exact absurd this (by decide)

theorem goUnmarshalUint64_formatNat {n : Nat} (h : n ≤ 18446744073709551615) :
    goUnmarshalUint64 (formatNat n) = .ok n := by
  unfold goUnmarshalUint64
  rw [isJsonNumLit_formatNat, isJsonUIntLit_formatNat, digitsVal_formatNat]
  simp [h]

theorem goUnmarshalInt64_formatInt {x : Int}
    (hl : -9223372036854775808 ≤ x) (hr : x ≤ 9223372036854775807) :
    goUnmarshalInt64 (formatInt x) = .ok x := by
  unfold goUnmarshalInt64
  rw [isJsonNumLit_formatInt, isJsonIntLit_formatInt, jsonIntVal_formatInt]
  simp only [Bool.not_true, Bool.false_eq_true, if_false, if_true]
  rw [if_pos ⟨hl, hr⟩]

theorem goParseUint_formatNat {n : Nat} (h : n < 18446744073709551616) :
    goParseUint (formatNat n) 64 = (n, none) := by
  unfold goParseUint
  rw [if_neg, digitsVal_formatNat, if_pos (by norm_num; omega)]
  simp [formatNat_ne_nil n, List.isEmpty_iff, formatNat_all n]

theorem splitSign_formatInt_nonneg {x : Int} (h : 0 ≤ x) :
    splitSign (formatInt x) = (false, formatNat x.natAbs) := by
  rw [formatInt_eq_of_nonneg h]
  obtain ⟨c, cs, hcons⟩ := List.exists_cons_of_ne_nil (formatNat_ne_nil x.natAbs)
  have hdig : isDigitChar c = true := by
    have := formatNat_all x.natAbs
    rw [hcons, List.all_cons] at this
    exact (Bool.and_eq_true _ _ |>.mp this).1
  rw [hcons]
  unfold splitSign
  have h1 : (c == '-') = false := by
    apply beq_eq_false_iff_ne.mpr; intro he; subst he; simp [isDigitChar] at hdig
  have h2 : (c == '+') = false := by
    apply beq_eq_false_iff_ne.mpr; intro he; subst he; simp [isDigitChar] at hdig
  simp [h1, h2]

theorem splitSign_formatInt_neg {x : Int} (h : x < 0) :
    splitSign (formatInt x) = (true, formatNat x.natAbs) := by
  rw [formatInt_eq_of_neg h]
  unfold splitSign
  simp

theorem goParseInt_formatInt {x : Int} (hl : -32768 ≤ x) (hr : x ≤ 32767) :
    goParseInt (formatInt x) 16 = (x, none) := by
  unfold goParseInt
  by_cases h : x < 0
  · rw [splitSign_formatInt_neg h]
    simp only [List.isEmpty_iff, formatNat_all, Bool.not_true]
    rw [if_neg (by simp [formatNat_ne_nil]), digitsVal_formatNat]
    have hv : -(x.natAbs : Int) = x := by omega
    rw [hv, if_neg (by norm_num; omega), if_neg (by norm_num; omega)]
    simp
  · rw [splitSign_formatInt_nonneg (by omega)]
    simp only [List.isEmpty_iff, formatNat_all, Bool.not_true]
    rw [if_neg (by simp [formatNat_ne_nil]), digitsVal_formatNat]
    have hv : (x.natAbs : Int) = x := by omega
    rw [hv, if_neg (by norm_num; omega), if_neg (by norm_num; omega)]
    simp

theorem goJsonClassify_formatNat (n : Nat) :
    goJsonClassify (formatNat n) = some .num := by
  unfold goJsonClassify
  rw [if_pos (isJsonNumLit_formatNat n)]

theorem toInt16_of_range {x : Int} (hl : -32768 ≤ x) (hr : x ≤ 32767) :
    toInt16 x = x := by
  unfold toInt16
  omega

/-- Mutating operations available on an `Int16` instance, used to state
instance-lifetime invariants over arbitrary operation applications. -/
inductive Int16Op
  | uJSON (data : List Char)
  | uText (text : List Char)
  | setValid (n : Int)
  | scan (v : DriverValue)
  | randomize (r : Int) (fieldType : List Char) (shouldBeNull : Bool)
deriving DecidableEq

/-- Application of one mutating operation to an `Int16` state (errors
discarded: only the poststate matters for the flag invariants). -/
def Int16.apply (i : Int16) : Int16Op → Int16
  | .uJSON d => (i.UnmarshalJSON d).1
  | .uText t => (i.UnmarshalText t).1
  | .setValid n => i.SetValid n
  | .scan v => (i.Scan v).1
  | .randomize r ft b => i.Randomize r ft b

theorem formatInt_ne_nil (x : Int) : formatInt x ≠ [] := by
  unfold formatInt
  split
  · simp
  · exact formatNat_ne_nil _

theorem unmarshalJSON_set (i : Int16) (d : List Char) :
    ((Int16.UnmarshalJSON i d).1).set = true := by
  dsimp only [Int16.UnmarshalJSON]
  split
  · rfl
  · split
    · rfl
    · split <;> rfl

theorem unmarshalText_set (i : Int16) (t : List Char) :
    ((Int16.UnmarshalText i t).1).set = true := by
  dsimp only [Int16.UnmarshalText]
  split <;> rfl

theorem scan_set (i : Int16) (v : DriverValue) (h : v ≠ .dnil) :
    ((Int16.Scan i v).1).set = true := by
  dsimp only [Int16.Scan]
  rw [if_neg h]

theorem randomize_set (i : Int16) (r : Int) (ft : List Char) (b : Bool) :
    (Int16.Randomize i r ft b).set = i.set := by
  dsimp only [Int16.Randomize]
  split <;> rfl

/-!
Claim theorems.
-/

/-- C1 (counterexample): the claim "decoding the JSON encoding of `From(v)`
yields an instance equal to `From(v)`" fails for `Uint` at the representable
value 0: the decoded instance is invalid, `UintFrom 0` is valid. -/
theorem c1_roundtrip_counterexample :
    (Uint.UnmarshalJSON ⟨0, false⟩ (Uint.MarshalJSON (UintFrom 0))).1 ≠ UintFrom 0 := by
  decide

/-- C1 (amended): the JSON and text round-trips hold for every representable
value of `Int16`, and for `Uint`/`Uint64` the text round-trip holds for every
representable value while the JSON round-trip holds for every representable
value except 0 (where decoding yields the invalid instance).  The decode
side is stated for an arbitrary prior instance state. -/
theorem c1_roundtrip_amended (i : Int16) (u : Uint) (w : Uint64)
    (vi : Int) (hvl : -32768 ≤ vi) (hvr : vi ≤ 32767)
    (vn : Nat) (hvn : vn < 18446744073709551616) :
    Int16.UnmarshalJSON i (Int16.MarshalJSON (Int16From vi)) = (Int16From vi, none)
    ∧ Int16.UnmarshalText i (Int16.MarshalText (Int16From vi)) = (Int16From vi, none)
    ∧ (vn ≠ 0 →
        Uint.UnmarshalJSON u (Uint.MarshalJSON (UintFrom vn)) = (UintFrom vn, none))
    ∧ Uint.UnmarshalText u (Uint.MarshalText (UintFrom vn)) = (UintFrom vn, none)
    ∧ (vn ≠ 0 →
        Uint64.UnmarshalJSON w (Uint64.MarshalJSON (Uint64From vn)) = (Uint64From vn, none))
    ∧ Uint64.UnmarshalText w (Uint64.MarshalText (Uint64From vn)) = (Uint64From vn, none) := by
  refine ⟨?_, ?_, fun hne => ?_, ?_, fun hne => ?_, ?_⟩
  · show Int16.UnmarshalJSON i (formatInt vi) = (Int16From vi, none)
    dsimp only [Int16.UnmarshalJSON]
    rw [if_neg (formatInt_ne_NullBytes vi),
      goUnmarshalInt64_formatInt (by omega) (by omega)]
    dsimp only []
    rw [if_neg (by omega : ¬ 32767 < vi), toInt16_of_range hvl hvr]
    rfl
  · show Int16.UnmarshalText i (formatInt vi) = (Int16From vi, none)
    dsimp only [Int16.UnmarshalText]
    rw [if_neg (by simp [List.isEmpty_iff, formatInt_ne_nil]),
      goParseInt_formatInt hvl hvr]
    simp [Int16From, NewInt16, toInt16_of_range hvl hvr]
  · show Uint.UnmarshalJSON u (formatNat vn) = (UintFrom vn, none)
    dsimp only [Uint.UnmarshalJSON]
    rw [if_neg (formatNat_ne_NullBytes vn)]
    rw [goJsonClassify_formatNat vn]
    dsimp only []
    rw [goUnmarshalUint64_formatNat (by omega)]
    dsimp only []
    rw [show (vn != 0) = true by simpa using hne]
    rfl
  · show Uint.UnmarshalText u (formatNat vn) = (UintFrom vn, none)
    dsimp only [Uint.UnmarshalText]
    rw [if_neg (by simp [List.isEmpty_iff, formatNat_ne_nil]),
      goParseUint_formatNat hvn]
    simp [UintFrom, NewUint]
  · show Uint64.UnmarshalJSON w (formatNat vn) = (Uint64From vn, none)
    dsimp only [Uint64.UnmarshalJSON]
    rw [if_neg (formatNat_ne_NullBytes vn)]
    rw [goJsonClassify_formatNat vn]
    dsimp only []
    rw [goUnmarshalUint64_formatNat (by omega)]
    dsimp only []
    rw [show (vn != 0) = true by simpa using hne]
    rfl
  · show Uint64.UnmarshalText w (formatNat vn) = (Uint64From vn, none)
    dsimp only [Uint64.UnmarshalText]
    rw [if_neg (by simp [List.isEmpty_iff, formatNat_ne_nil]),
      goParseUint_formatNat hvn]
    simp [Uint64From, NewUint64]

/-- C1 (witness): the amended round-trip instantiated at -5 for `Int16`,
7 for `Uint`, and 0 for the `Uint64` text round-trip. -/
theorem c1_roundtrip_witness :
    Int16.UnmarshalJSON ⟨0, false, false⟩ (Int16.MarshalJSON (Int16From (-5)))
      = (Int16From (-5), none)
    ∧ Uint.UnmarshalJSON ⟨0, false⟩ (Uint.MarshalJSON (UintFrom 7)) = (UintFrom 7, none)
    ∧ Uint64.UnmarshalText ⟨0, false⟩ (Uint64.MarshalText (Uint64From 0))
      = (Uint64From 0, none) := by
  have h1 := c1_roundtrip_amended ⟨0, false, false⟩ ⟨0, false⟩ ⟨0, false⟩
    (-5) (by norm_num) (by norm_num) 7 (by norm_num)
  have h2 := c1_roundtrip_amended ⟨0, false, false⟩ ⟨0, false⟩ ⟨0, false⟩
    0 (by norm_num) (by norm_num) 0 (by norm_num)
  exact ⟨h1.1, h1.2.2.1 (by norm_num), h2.2.2.2.2.2⟩

/-- C2 (code bug): `Int16.UnmarshalJSON` only guards the upper bound.  The
JSON literal -40000 is below -32768, yet decoding returns a nil error and
silently stores the two's-complement truncation 25536 as a valid value; by
contrast 40000 is correctly rejected with an overflow error. -/
theorem c2_negative_overflow_truncates :
    Int16.UnmarshalJSON ⟨0, false, false⟩ (("-40000").toList)
      = (⟨25536, true, true⟩, none)
    ∧ Int16.UnmarshalJSON ⟨0, false, false⟩ (("40000").toList)
      = (⟨0, false, true⟩, some (.overflow 40000)) := by
  exact ⟨by decide, by decide⟩

/-- C3: decoding the JSON literal 0 yields an invalid zero instance for
`Uint` and `Uint64`, and a valid zero for `Int16`, from any prior state. -/
theorem c3_zero_literal :
    (∀ u : Uint, Uint.UnmarshalJSON u (("0").toList) = (⟨0, false⟩, none))
    ∧ (∀ w : Uint64, Uint64.UnmarshalJSON w (("0").toList) = (⟨0, false⟩, none))
    ∧ (∀ i : Int16, Int16.UnmarshalJSON i (("0").toList) = (⟨0, true, true⟩, none)) :=
  ⟨fun _ => rfl, fun _ => rfl, fun _ => rfl⟩

/-- C4 (counterexample): a decode error can leave `valid = true`.  With a
prior valid instance, `Int16.UnmarshalJSON` on the overflowing literal
40000 reports an error yet the instance keeps `valid = true`. -/
theorem c4_error_valid_counterexample :
    (Int16.UnmarshalJSON ⟨0, true, true⟩ (("40000").toList)).2 ≠ none
    ∧ ((Int16.UnmarshalJSON ⟨0, true, true⟩ (("40000").toList)).1).valid = true := by
  exact ⟨by decide, by decide⟩

/-- C4 (amended): on a `UnmarshalText` error every type leaves
`valid = false`.  On an `UnmarshalJSON` error, `Int16` keeps the prior
`valid` and value (only the `set` flag is raised), while `Uint` and
`Uint64` set `valid = false` except when the initial JSON parse of the
payload fails, in which case the instance is left completely unchanged. -/
theorem c4_error_state_amended :
    (∀ (i : Int16) (d : List Char), (Int16.UnmarshalJSON i d).2 ≠ none →
        (Int16.UnmarshalJSON i d).1 = { i with set := true })
    ∧ (∀ (i : Int16) (t : List Char), (Int16.UnmarshalText i t).2 ≠ none →
        ((Int16.UnmarshalText i t).1).valid = false)
    ∧ (∀ (u : Uint) (d : List Char), (Uint.UnmarshalJSON u d).2 ≠ none →
        ((Uint.UnmarshalJSON u d).1).valid = false
          ∨ (goJsonClassify d = none ∧ (Uint.UnmarshalJSON u d).1 = u))
    ∧ (∀ (u : Uint) (t : List Char), (Uint.UnmarshalText u t).2 ≠ none →
        ((Uint.UnmarshalText u t).1).valid = false)
    ∧ (∀ (w : Uint64) (d : List Char), (Uint64.UnmarshalJSON w d).2 ≠ none →
        ((Uint64.UnmarshalJSON w d).1).valid = false
          ∨ (goJsonClassify d = none ∧ (Uint64.UnmarshalJSON w d).1 = w))
    ∧ (∀ (w : Uint64) (t : List Char), (Uint64.UnmarshalText w t).2 ≠ none →
        ((Uint64.UnmarshalText w t).1).valid = false) := by
  refine ⟨?_, ?_, ?_, ?_, ?_, ?_⟩
  · intro i d h
    by_cases hd : d = NullBytes
    · simp [Int16.UnmarshalJSON, hd] at h
    · rcases hgo : goUnmarshalInt64 d with e | x
      · simp [Int16.UnmarshalJSON, hd, hgo]
      · by_cases hx : 32767 < x
        · simp [Int16.UnmarshalJSON, hd, hgo, hx]
        · simp [Int16.UnmarshalJSON, hd, hgo, hx] at h
  · intro i t h
    by_cases ht : t.isEmpty
    · simp [Int16.UnmarshalText, ht] at h
    · rcases hp : (goParseInt t 16).2 with _ | e
      · exfalso; apply h; simp [Int16.UnmarshalText, ht, hp]
      · simp [Int16.UnmarshalText, ht, hp]
  · intro u d h
    by_cases hd : d = NullBytes
    · simp [Uint.UnmarshalJSON, hd] at h
    · rcases hc : goJsonClassify d with _ | v
      · exact Or.inr ⟨rfl, by simp [Uint.UnmarshalJSON, hd, hc]⟩
      · cases v with
        | num =>
          rcases hgo : goUnmarshalUint64 d with e | x
          · exact Or.inl (by simp [Uint.UnmarshalJSON, hd, hc, hgo])
          · simp [Uint.UnmarshalJSON, hd, hc, hgo] at h
        | jstr s =>
          by_cases hs : s.isEmpty
          · simp [Uint.UnmarshalJSON, hd, hc, hs] at h
          · rcases hp : (goParseUint s 64).2 with _ | e
            · exfalso; apply h; simp [Uint.UnmarshalJSON, hd, hc, hs, hp]
            · exact Or.inl (by simp [Uint.UnmarshalJSON, hd, hc, hs, hp])
        | jnull => simp [Uint.UnmarshalJSON, hd, hc] at h
        | jbool b => exact Or.inl (by simp [Uint.UnmarshalJSON, hd, hc])
        | jarr => exact Or.inl (by simp [Uint.UnmarshalJSON, hd, hc])
        | jobj => exact Or.inl (by simp [Uint.UnmarshalJSON, hd, hc])
  · intro u t h
    by_cases ht : t.isEmpty
    · simp [Uint.UnmarshalText, ht] at h
    · rcases hp : (goParseUint t 64).2 with _ | e
      · exfalso; apply h; simp [Uint.UnmarshalText, ht, hp]
      · simp [Uint.UnmarshalText, ht, hp]
  · intro w d h
    by_cases hd : d = NullBytes
    · simp [Uint64.UnmarshalJSON, hd] at h
    · rcases hc : goJsonClassify d with _ | v
      · exact Or.inr ⟨rfl, by simp [Uint64.UnmarshalJSON, hd, hc]⟩
      · cases v with
        | num =>
          rcases hgo : goUnmarshalUint64 d with e | x
          · exact Or.inl (by simp [Uint64.UnmarshalJSON, hd, hc, hgo])
          · simp [Uint64.UnmarshalJSON, hd, hc, hgo] at h
        | jstr s =>
          by_cases hs : s.isEmpty
          · simp [Uint64.UnmarshalJSON, hd, hc, hs] at h
          · rcases hp : (goParseUint s 64).2 with _ | e
            · exfalso; apply h; simp [Uint64.UnmarshalJSON, hd, hc, hs, hp]
            · exact Or.inl (by simp [Uint64.UnmarshalJSON, hd, hc, hs, hp])
        | jnull => simp [Uint64.UnmarshalJSON, hd, hc] at h
        | jbool b => exact Or.inl (by simp [Uint64.UnmarshalJSON, hd, hc])
        | jarr => exact Or.inl (by simp [Uint64.UnmarshalJSON, hd, hc])
        | jobj => exact Or.inl (by simp [Uint64.UnmarshalJSON, hd, hc])
  · intro w t h
    by_cases ht : t.isEmpty
    · simp [Uint64.UnmarshalText, ht] at h
    · rcases hp : (goParseUint t 64).2 with _ | e
      · exfalso; apply h; simp [Uint64.UnmarshalText, ht, hp]
      · simp [Uint64.UnmarshalText, ht, hp]

/-- C4 (witness): the amended statement applied to a failing text parse of
the non-numeric input on a previously valid instance: the flag is cleared. -/
theorem c4_error_state_witness :
    ((Int16.UnmarshalText ⟨5, true, true⟩ (("abc").toList)).1).valid = false
    ∧ ((Uint.UnmarshalText ⟨5, true⟩ (("abc").toList)).1).valid = false := by
  exact ⟨c4_error_state_amended.2.1 ⟨5, true, true⟩ (("abc").toList) (by decide),
    c4_error_state_amended.2.2.2.1 ⟨5, true⟩ (("abc").toList) (by decide)⟩

/-- C5: `Uint64.Value` returns the driver nil sentinel when invalid, the
signed 64-bit integer when the value is below 2^63, the canonical decimal
string at or above 2^63, and in particular 2^63 yields the string
"9223372036854775808". -/
theorem c5_value :
    (∀ n : Nat, Uint64.Value ⟨n, false⟩ = (.dnil, none))
    ∧ (∀ n : Nat, n < 9223372036854775808 →
        Uint64.Value ⟨n, true⟩ = (.dint64 (n : Int), none))
    ∧ (∀ n : Nat, 9223372036854775808 ≤ n →
        Uint64.Value ⟨n, true⟩ = (.dstring (formatNat n), none))
    ∧ Uint64.Value ⟨9223372036854775808, true⟩
        = (.dstring (("9223372036854775808").toList), none) := by
  refine ⟨fun n => rfl, fun n h => ?_, fun n h => ?_, ?_⟩
  · dsimp only [Uint64.Value]
    rw [if_neg (by simp), if_neg (by omega)]
  · dsimp only [Uint64.Value]
    rw [if_neg (by simp), if_pos h]
  · decide

/-- C5 (witness): the conditional parts of `c5_value` instantiated at 42
and at 2^63. -/
theorem c5_value_witness :
    Uint64.Value ⟨42, true⟩ = (.dint64 (42 : Int), none)
    ∧ Uint64.Value ⟨9223372036854775808, true⟩
        = (.dstring (("9223372036854775808").toList), none) :=
  ⟨c5_value.2.1 42 (by norm_num), c5_value.2.2.2⟩

/-- C6: scanning a negative signed 64-bit driver value into `Uint64`
succeeds with `valid = true` and stores the two's-complement
reinterpretation (the value plus 2^64). -/
theorem c6_scan_negative (u : Uint64) (x : Int)
    (hl : -9223372036854775808 ≤ x) (hr : x < 0) :
    Uint64.Scan u (.dint64 x) = (⟨(x + 18446744073709551616).toNat, true⟩, none) := by
  dsimp only [Uint64.Scan]
  rw [if_neg (by simp), if_pos hr]
  dsimp only [convertAssignUint64]
  have hv : (x % 18446744073709551616).toNat % 18446744073709551616
      = (x + 18446744073709551616).toNat := by omega
  rw [hv]

/-- C6 (witness): scanning the driver value -1 yields 18446744073709551615
with no error. -/
theorem c6_scan_negative_witness :
    Uint64.Scan ⟨0, false⟩ (.dint64 (-1)) = (⟨18446744073709551615, true⟩, none) := by
  have h := c6_scan_negative ⟨0, false⟩ (-1) (by norm_num) (by norm_num)
  rw [h]
  norm_num
  rfl

/-- C7: scanning a nil driver value yields the invalid zero instance for
every type and every prior state (for `Int16` the `set` flag is also
cleared). -/
theorem c7_scan_nil :
    (∀ i : Int16, Int16.Scan i .dnil = (⟨0, false, false⟩, none))
    ∧ (∀ u : Uint, Uint.Scan u .dnil = (⟨0, false⟩, none))
    ∧ (∀ w : Uint64, Uint64.Scan w .dnil = (⟨0, false⟩, none)) :=
  ⟨fun _ => rfl, fun _ => rfl, fun _ => rfl⟩

/-- C8: for every invalid instance of every type, `MarshalJSON` returns
exactly the bytes of the null literal and `MarshalText` returns the empty
byte sequence, whatever the stored value. -/
theorem c8_marshal_invalid :
    (∀ (x : Int) (b : Bool), Int16.MarshalJSON ⟨x, false, b⟩ = ("null").toList
        ∧ Int16.MarshalText ⟨x, false, b⟩ = [])
    ∧ (∀ n : Nat, Uint.MarshalJSON ⟨n, false⟩ = ("null").toList
        ∧ Uint.MarshalText ⟨n, false⟩ = [])
    ∧ (∀ n : Nat, Uint64.MarshalJSON ⟨n, false⟩ = ("null").toList
        ∧ Uint64.MarshalText ⟨n, false⟩ = []) :=
  ⟨fun _ _ => ⟨rfl, rfl⟩, fun _ => ⟨rfl, rfl⟩, fun _ => ⟨rfl, rfl⟩⟩

/-- C9 (counterexample): `Randomize` mutates a default-constructed instance
(it becomes valid with a fresh value) yet `IsSet` still reports false, so
"IsSet is true iff some operation has touched the instance" fails. -/
theorem c9_isset_counterexample :
    ((⟨0, false, false⟩ : Int16).apply (.randomize 5 [] false)).IsSet = false
    ∧ (⟨0, false, false⟩ : Int16).apply (.randomize 5 [] false) ≠ ⟨0, false, false⟩ := by
  exact ⟨by decide, by decide⟩

/-- C9 (amended): the `set` flag read by `IsSet` is raised by both decode
operations, by `SetValid` and by `Scan` with a non-nil driver value; it is
left unchanged by `Randomize` (which is why a randomized instance can be
touched yet report unset); and once true it never reverts to false under
any modelled operation except `Scan` with the nil driver value. -/
theorem c9_isset_amended :
    (∀ (i : Int16) (op : Int16Op), i.IsSet = true → op ≠ .scan .dnil →
        (i.apply op).IsSet = true)
    ∧ (∀ (i : Int16) (d : List Char), ((Int16.UnmarshalJSON i d).1).IsSet = true)
    ∧ (∀ (i : Int16) (t : List Char), ((Int16.UnmarshalText i t).1).IsSet = true)
    ∧ (∀ (i : Int16) (n : Int), (Int16.SetValid i n).IsSet = true)
    ∧ (∀ (i : Int16) (v : DriverValue), v ≠ .dnil → ((Int16.Scan i v).1).IsSet = true)
    ∧ (∀ (i : Int16) (r : Int) (ft : List Char) (b : Bool),
        (Int16.Randomize i r ft b).IsSet = i.IsSet) := by
  refine ⟨?_, unmarshalJSON_set, unmarshalText_set, fun i n => rfl,
    fun i v h => scan_set i v h, fun i r ft b => randomize_set i r ft b⟩
  intro i op h hop
  cases op with
  | uJSON d => exact unmarshalJSON_set i d
  | uText t => exact unmarshalText_set i t
  | setValid n => rfl
  | scan v =>
    refine scan_set i v ?_
    intro hv
    exact hop (by rw [hv])
  | randomize r ft b =>
    show (Int16.Randomize i r ft b).IsSet = true
    rw [show (Int16.Randomize i r ft b).IsSet = i.IsSet from randomize_set i r ft b]
    exact h

/-- C9 (witness): monotonicity applied to an already-set instance and an
empty-text decode. -/
theorem c9_isset_witness :
    ((⟨0, true, true⟩ : Int16).apply (.uText [])).IsSet = true :=
  c9_isset_amended.1 ⟨0, true, true⟩ (.uText []) rfl (by decide)

/-- C10: a failing non-empty text parse never overwrites the numeric
field: only the valid flag is cleared, for all three types. -/
theorem c10_text_frame :
    (∀ (i : Int16) (t : List Char), t ≠ [] → (Int16.UnmarshalText i t).2 ≠ none →
        ((Int16.UnmarshalText i t).1).int16 = i.int16
          ∧ ((Int16.UnmarshalText i t).1).valid = false)
    ∧ (∀ (u : Uint) (t : List Char), t ≠ [] → (Uint.UnmarshalText u t).2 ≠ none →
        ((Uint.UnmarshalText u t).1).uint = u.uint
          ∧ ((Uint.UnmarshalText u t).1).valid = false)
    ∧ (∀ (w : Uint64) (t : List Char), t ≠ [] → (Uint64.UnmarshalText w t).2 ≠ none →
        ((Uint64.UnmarshalText w t).1).uint64 = w.uint64
          ∧ ((Uint64.UnmarshalText w t).1).valid = false) := by
  refine ⟨?_, ?_, ?_⟩
  · intro i t _ h
    by_cases ht : t.isEmpty
    · simp [Int16.UnmarshalText, ht] at h
    · rcases hp : (goParseInt t 16).2 with _ | e
      · exfalso; apply h; simp [Int16.UnmarshalText, ht, hp]
      · constructor <;> simp [Int16.UnmarshalText, ht, hp]
  · intro u t _ h
    by_cases ht : t.isEmpty
    · simp [Uint.UnmarshalText, ht] at h
    · rcases hp : (goParseUint t 64).2 with _ | e
      · exfalso; apply h; simp [Uint.UnmarshalText, ht, hp]
      · constructor <;> simp [Uint.UnmarshalText, ht, hp]
  · intro w t _ h
    by_cases ht : t.isEmpty
    · simp [Uint64.UnmarshalText, ht] at h
    · rcases hp : (goParseUint t 64).2 with _ | e
      · exfalso; apply h; simp [Uint64.UnmarshalText, ht, hp]
      · constructor <;> simp [Uint64.UnmarshalText, ht, hp]

/-- C10 (witness): the frame property applied to the unparsable non-empty
input on instances holding 7. -/
theorem c10_text_frame_witness :
    ((Int16.UnmarshalText ⟨7, true, true⟩ (("x9").toList)).1).int16 = 7
    ∧ ((Uint.UnmarshalText ⟨7, true⟩ (("x9").toList)).1).uint = 7
    ∧ ((Uint64.UnmarshalText ⟨7, true⟩ (("x9").toList)).1).uint64 = 7 :=
  ⟨(c10_text_frame.1 ⟨7, true, true⟩ (("x9").toList) (by decide) (by decide)).1,
   (c10_text_frame.2.1 ⟨7, true⟩ (("x9").toList) (by decide) (by decide)).1,
   (c10_text_frame.2.2 ⟨7, true⟩ (("x9").toList) (by decide) (by decide)).1⟩

end Null
